import Mathlib

/-!
Shallow embedding of the SyncPulse Keepers host-authoritative game logic.

The embedding covers the host-side simulation from
`src/routes/+page.svelte` (game state, the 100 ms game-loop tick, the
1 s score tick, node spawning, click handling, start/game-over
transitions, client-side message handling) and the broadcast primitive
from the connection store module (`broadcastData`).

Modelling decisions:
- `pulseHealth` is a JS number mutated by exact decimal amounts; it is
  embedded as a rational (`ℚ`).
- Node timers are millisecond counts that may transiently go non-positive;
  they are embedded as integers (`ℤ`).
- The three `setInterval`/`setTimeout` timers are represented by a single
  `timersOn` flag (set by `startGameTimers`, cleared by `stopGameTimers`);
  the firing of a timer callback is an explicit operation (`HostOp`).
- `Math.random()` positions are taken as oracle inputs to `spawnNode`.
- Sending is modelled by returning the list of messages handed to
  `broadcastData`; per-peer delivery of one such message is modelled
  separately by `broadcastData` over connection records whose
  open/send-failure status is an oracle.
-/

namespace SyncPulse

/-- `MAX_HEALTH = 100` from the Game Config block. -/
def MAX_HEALTH : ℚ := 100

/-- `HEALTH_DRAIN_RATE = 1` (points per second). -/
def HEALTH_DRAIN_RATE : ℚ := 1

/-- `NODE_SPAWN_INTERVAL_START = 3000` ms. -/
def NODE_SPAWN_INTERVAL_START : ℤ := 3000

/-- `NODE_SPAWN_INTERVAL_MIN = 800` ms. -/
def NODE_SPAWN_INTERVAL_MIN : ℤ := 800

/-- `NODE_TIMER_DURATION = 5000` ms. -/
def NODE_TIMER_DURATION : ℤ := 5000

/-- `HEALTH_GAIN_PER_CLICK = 5`. -/
def HEALTH_GAIN_PER_CLICK : ℚ := 5

/-- `HEALTH_LOSS_PER_MISS = 15`. -/
def HEALTH_LOSS_PER_MISS : ℚ := 15

/-- A spawned node: `{ id, x, y, timer, maxTimer }`. -/
structure Node where
  id : ℕ
  x : ℚ
  y : ℚ
  timer : ℤ
  maxTimer : ℤ
  deriving DecidableEq, Repr

/-- The component-level game variables of `+page.svelte`:
`gameRunning`, `pulseHealth`, `score`, `nodes`, `gameOver`, `nextNodeId`,
plus `timersOn` abstracting whether the game timers are installed. -/
structure GameState where
  gameRunning : Bool
  pulseHealth : ℚ
  score : ℕ
  nodes : List Node
  gameOver : Bool
  nextNodeId : ℕ
  timersOn : Bool
  deriving DecidableEq, Repr

/-- The message vocabulary exchanged over data channels (tagged by the
`type` field in the JS objects). -/
inductive GameMsg where
  | gameStateUpdate (health : ℚ) (score : ℕ) (nodes : List Node)
      (running : Bool) (over : Bool)
  | gameOverMsg (finalScore : ℕ)
  | welcome (message : String)
  | peerDisconnect (peerId : String)
  | playerAction (action : String) (nodeId : ℕ)
  deriving DecidableEq, Repr

/-- `broadcastGameState()`: host-only; packages the current component
state into a `gameStateUpdate` message and hands it to `broadcastData`.
We return the list of messages handed over (`[]` when not host). -/
def broadcastGameState (isHost : Bool) (s : GameState) : List GameMsg :=
  if !isHost then []
  else [GameMsg.gameStateUpdate s.pulseHealth s.score s.nodes
          s.gameRunning s.gameOver]

/-- `broadcastGameOver()`: host-only; stops the timers and hands a
`gameOver` message carrying `finalScore: score` to `broadcastData`. -/
def broadcastGameOver (isHost : Bool) (s : GameState) :
    GameState × List GameMsg :=
  if !isHost then (s, [])
  else ({ s with timersOn := false }, [GameMsg.gameOverMsg s.score])

/-- The body of `nodes.map(...)` + `.filter(Boolean)` inside the game
loop: processed left to right, each node's `timer` is decremented by
100; a node whose decremented timer is `<= 0` is dropped and penalizes
health by `HEALTH_LOSS_PER_MISS` (clamped at 0) and sets the `missed`
flag; surviving nodes keep their decremented timer.  Returns
`(pulseHealth, nodes, missed)` after the pass. -/
def processNodes : ℚ → List Node → ℚ × List Node × Bool
  | h, [] => (h, [], false)
  | h, n :: rest =>
    if n.timer - 100 ≤ 0 then
      let res := processNodes (max 0 (h - HEALTH_LOSS_PER_MISS)) rest
      (res.1, res.2.1, true)
    else
      let res := processNodes h rest
      (res.1, { n with timer := n.timer - 100 } :: res.2.1, res.2.2)

/-- Declarative per-node action of one game-loop pass, used to state
what `processNodes` does to the node list: decrement the timer by the
tick period; drop the node if the decremented timer is `<= 0`. -/
def tickNode (n : Node) : Option Node :=
  if n.timer - 100 ≤ 0 then none else some { n with timer := n.timer - 100 }

/-- The `gameLoopInterval` callback (every 100 ms): guard on
`!gameRunning || gameOver`; drain health by
`HEALTH_DRAIN_RATE / (1000 / 100)` clamped at 0; decrement node timers
and apply miss penalties; on `pulseHealth <= 0` set `gameOver`, clear
`gameRunning`, stop the timers and broadcast game over; otherwise
broadcast a snapshot when a node was missed or `score % 5 === 0`. -/
def gameLoopTick (isHost : Bool) (s : GameState) : GameState × List GameMsg :=
  if !s.gameRunning || s.gameOver then (s, [])
  else
    let h1 := max 0 (s.pulseHealth - HEALTH_DRAIN_RATE / (1000 / 100))
    let res := processNodes h1 s.nodes
    if res.1 ≤ 0 then
      let sOver : GameState :=
        { s with pulseHealth := res.1, nodes := res.2.1,
                 gameOver := true, gameRunning := false, timersOn := false }
      broadcastGameOver isHost sOver
    else
      let s2 : GameState := { s with pulseHealth := res.1, nodes := res.2.1 }
      if res.2.2 || s.score % 5 == 0 then (s2, broadcastGameState isHost s2)
      else (s2, [])

/-- The `scoreInterval` callback (every 1000 ms): guard on
`!gameRunning || gameOver`, then `score++`. -/
def scoreTick (s : GameState) : GameState :=
  if !s.gameRunning || s.gameOver then s else { s with score := s.score + 1 }

/-- `spawnNode()`: guard on `!$isHost || !gameRunning || gameOver`;
appends a node with id `nextNodeId++`, oracle position `(x, y)` and a
full timer.  Does not broadcast. -/
def spawnNode (isHost : Bool) (x y : ℚ) (s : GameState) : GameState :=
  if !isHost || !s.gameRunning || s.gameOver then s
  else
    { s with
        nodes := s.nodes ++ [{ id := s.nextNodeId, x := x, y := y,
                               timer := NODE_TIMER_DURATION,
                               maxTimer := NODE_TIMER_DURATION }],
        nextNodeId := s.nextNodeId + 1 }

/-- `currentInterval` computed inside `scheduleNextSpawn()`:
`Math.max(NODE_SPAWN_INTERVAL_MIN, NODE_SPAWN_INTERVAL_START - (score * 10))`. -/
def currentInterval (score : ℕ) : ℤ :=
  max NODE_SPAWN_INTERVAL_MIN (NODE_SPAWN_INTERVAL_START - (score : ℤ) * 10)

/-- `handleNodeClick(nodeId, clickerPeerId)`: guard on
`!$isHost || !gameRunning || gameOver`; `findIndex` on `n.id === nodeId`;
if found, add `HEALTH_GAIN_PER_CLICK` clamped at `MAX_HEALTH`, filter the
node out, and broadcast the updated state immediately; otherwise a
silent no-op. -/
def handleNodeClick (isHost : Bool) (nodeId : ℕ) (s : GameState) :
    GameState × List GameMsg :=
  if !isHost || !s.gameRunning || s.gameOver then (s, [])
  else if s.nodes.any (fun n => n.id == nodeId) then
    let s2 : GameState :=
      { s with pulseHealth := min MAX_HEALTH (s.pulseHealth + HEALTH_GAIN_PER_CLICK),
               nodes := s.nodes.filter (fun n => n.id != nodeId) }
    (s2, broadcastGameState isHost s2)
  else (s, [])

/-- JS strict equality (`===`) between a Boolean and a Number: never
true, because the operands have different types and `===` performs no
coercion.  This embeds the expression
`!Object.keys($connections).length === 0`, which parses as
`(!length) === 0` and therefore always evaluates to `false`. -/
def jsStrictEqBoolNum (b : Bool) (n : ℤ) : Bool := false

/-- `startGameHost()`: the guard
`if (!$isHost || gameRunning || !$connections || Object.keys($connections).length === 0)`
only logs; the inner
`if (!Object.keys($connections).length === 0 && !$isHost) return;`
is the only early return, and its condition compares a Boolean to the
Number 0 with `===` (see `jsStrictEqBoolNum`), so execution always falls
through to the reset: `gameOver = false`, `pulseHealth = MAX_HEALTH`,
`score = 0`, `nodes = []`, `nextNodeId = 0`, `gameRunning = true`,
`startGameTimers()`, then `broadcastGameState()`. -/
def startGameHost (isHost : Bool) (connCount : ℕ) (s : GameState) :
    GameState × List GameMsg :=
  if (!isHost || s.gameRunning || connCount == 0) &&
     (jsStrictEqBoolNum (connCount == 0) 0 && !isHost) then
    (s, [])
  else
    let s2 : GameState :=
      { gameRunning := true, pulseHealth := MAX_HEALTH, score := 0,
        nodes := [], gameOver := false, nextNodeId := 0, timersOn := true }
    (s2, broadcastGameState isHost s2)

/-- `window.handleGameData(data, senderPeerId)`: the dispatch installed
in `onMount`.  `hostPeer` is `$hostConnection?.peer` (`none` when
`$hostConnection` is null).  A client applies a `gameStateUpdate` only
when `$hostConnection && senderPeerId === $hostConnection.peer`; the
host forwards `playerAction clickNode` to `handleNodeClick`; a client
applies `gameOver` unconditionally, overwriting `score` only when
`data.finalScore` is truthy; `welcome` and `peerDisconnect` only log. -/
def handleGameData (isHost : Bool) (hostPeer : Option String)
    (data : GameMsg) (senderPeerId : String) (s : GameState) :
    GameState × List GameMsg :=
  match data with
  | GameMsg.gameStateUpdate h sc ns r o =>
    if !isHost then
      if hostPeer == some senderPeerId then
        ({ s with pulseHealth := h, score := sc, nodes := ns,
                  gameRunning := r, gameOver := o }, [])
      else (s, [])
    else (s, [])
  | GameMsg.playerAction action nodeId =>
    if isHost && action == "clickNode" then handleNodeClick isHost nodeId s
    else (s, [])
  | GameMsg.gameOverMsg finalScore =>
    if !isHost then
      ({ s with gameOver := true, gameRunning := false, timersOn := false,
                score := if finalScore != 0 then finalScore else s.score }, [])
    else (s, [])
  | GameMsg.welcome _ => (s, [])
  | GameMsg.peerDisconnect _ => (s, [])

/-- A host-side connection record as seen by `broadcastData`:
`isOpen` embeds the channel's `.open` flag, `sendOk` is an oracle for
whether `.send(data)` throws on this call. -/
structure ConnRec where
  peerId : String
  isOpen : Bool
  sendOk : Bool
  deriving DecidableEq, Repr

/-- The `for (const peerId in currentConns)` loop of `broadcastData`:
skip non-open channels; a successful `send` delivers; a throwing `send`
is caught and `handleDisconnect(peerId)` removes that peer (only the
currently visited key, so iteration over the remaining peers
continues).  Returns `(delivered peer ids, disconnected peer ids)`. -/
def broadcastLoop : List ConnRec → List String × List String
  | [] => ([], [])
  | c :: rest =>
    if c.isOpen then
      if c.sendOk then
        let res := broadcastLoop rest
        (c.peerId :: res.1, res.2)
      else
        let res := broadcastLoop rest
        (res.1, c.peerId :: res.2)
    else broadcastLoop rest

/-- `broadcastData(data)` from the connection store: returns immediately
when not host (`if (!get(isHost)) return;`), otherwise runs the
per-connection loop. -/
def broadcastData (isHost : Bool) (conns : List ConnRec) :
    List String × List String :=
  if !isHost then ([], [])
  else broadcastLoop conns

/-- A host-side simulation event: the firing of one of the three timer
callbacks, or the handling of one interaction. -/
inductive HostOp where
  | tick
  | scoreInc
  | spawn (x y : ℚ)
  | click (nodeId : ℕ)
  deriving Repr

/-- Apply one simulation event to the state, collecting broadcast
messages. -/
def applyHostOp (isHost : Bool) (op : HostOp) (s : GameState) :
    GameState × List GameMsg :=
  match op with
  | HostOp.tick => gameLoopTick isHost s
  | HostOp.scoreInc => (scoreTick s, [])
  | HostOp.spawn x y => (spawnNode isHost x y s, [])
  | HostOp.click nodeId => handleNodeClick isHost nodeId s

/-- Run a sequence of simulation events, keeping only the state. -/
def runOps (isHost : Bool) (ops : List HostOp) (s : GameState) : GameState :=
  ops.foldl (fun t op => (applyHostOp isHost op t).1) s

/-- The health invariant of the data model: `health ∈ [0, MAX_HEALTH]`. -/
def healthInv (s : GameState) : Prop :=
  0 ≤ s.pulseHealth ∧ s.pulseHealth ≤ MAX_HEALTH

/-! ### Helper lemmas about one game-loop pass over the node list -/

theorem processNodes_nodes_eq (h : ℚ) (ns : List Node) :
    (processNodes h ns).2.1 = ns.filterMap tickNode := by
  induction ns generalizing h with
  | nil => simp [processNodes]
  | cons n rest ih =>
    by_cases hc : n.timer - 100 ≤ 0 <;>
      simp [processNodes, tickNode, hc, ih]

theorem processNodes_health_eq (h : ℚ) (ns : List Node) :
    (processNodes h ns).1 =
      ns.foldl
        (fun a n =>
          if n.timer - 100 ≤ 0 then max 0 (a - HEALTH_LOSS_PER_MISS) else a)
        h := by
  induction ns generalizing h with
  | nil => rfl
  | cons n rest ih =>
    by_cases hc : n.timer - 100 ≤ 0
    · simp only [processNodes, List.foldl_cons, if_pos hc]
      exact ih _
    · simp only [processNodes, List.foldl_cons, if_neg hc]
      exact ih _

theorem processNodes_health_nonneg (h : ℚ) (ns : List Node) (hh : 0 ≤ h) :
    0 ≤ (processNodes h ns).1 := by
  induction ns generalizing h with
  | nil => simpa [processNodes]
  | cons n rest ih =>
    by_cases hc : n.timer - 100 ≤ 0
    · simp only [processNodes, hc, if_true, reduceIte]
      exact ih _ (le_max_left _ _)
    · simp only [processNodes, hc, reduceIte]
      exact ih _ hh

theorem processNodes_health_le (h : ℚ) (ns : List Node) (hh : 0 ≤ h) :
    (processNodes h ns).1 ≤ h := by
  induction ns generalizing h with
  | nil => simp [processNodes]
  | cons n rest ih =>
    by_cases hc : n.timer - 100 ≤ 0
    · simp only [processNodes, hc, reduceIte]
      refine le_trans (ih _ (le_max_left _ _)) (max_le hh ?_)
      have : (0:ℚ) ≤ HEALTH_LOSS_PER_MISS := by norm_num [HEALTH_LOSS_PER_MISS]
      linarith
    · simp only [processNodes, hc, reduceIte]
      exact ih _ hh

/-- Every node surviving a game-loop pass has the id of some node of the
input list. -/
theorem mem_filterMap_tickNode_id (ns : List Node) (m : Node)
    (hm : m ∈ ns.filterMap tickNode) : m.id ∈ ns.map Node.id := by
  rcases List.mem_filterMap.mp hm with ⟨n, hn, he⟩
  have : m.id = n.id := by
    by_cases hc : n.timer - 100 ≤ 0 <;> simp [tickNode, hc] at he
    subst he
    rfl
  rw [this]
  exact List.mem_map_of_mem Node.id hn

/-- If the node ids are distinct, a node expiring in a game-loop pass
is gone afterwards: no surviving node carries its id. -/
theorem expired_id_not_surviving (ns : List Node)
    (hnd : (ns.map Node.id).Nodup) (n : Node) (hn : n ∈ ns)
    (hexp : n.timer - 100 ≤ 0) :
    ∀ m ∈ ns.filterMap tickNode, m.id ≠ n.id := by
  induction ns with
  | nil => cases hn
  | cons a rest ih =>
    have hnd2 : (rest.map Node.id).Nodup := (List.nodup_cons.mp hnd).2
    have hnotin : a.id ∉ rest.map Node.id := (List.nodup_cons.mp hnd).1
    rcases List.mem_cons.mp hn with rfl | hn2
    · -- the expired node is the head: it is dropped, and no node of the
      -- tail shares its id
      intro m hm
      simp only [List.filterMap_cons, tickNode, hexp, reduceIte] at hm
      intro hid
      exact hnotin (hid ▸ mem_filterMap_tickNode_id rest m hm)
    · intro m hm
      simp only [List.filterMap_cons] at hm
      by_cases hc : a.timer - 100 ≤ 0
      · simp only [tickNode, hc, reduceIte] at hm
        exact ih hnd2 hn2 m hm
      · simp only [tickNode, hc, reduceIte, List.mem_cons] at hm
        rcases hm with rfl | hm2
        · intro hid
          exact hnotin (hid ▸ List.mem_map_of_mem Node.id hn2)
        · exact ih hnd2 hn2 m hm2

/-! ### The `Over` state is terminal for the simulation -/

theorem applyHostOp_over (b : Bool) (op : HostOp) (s : GameState)
    (h : s.gameOver = true) : applyHostOp b op s = (s, []) := by
  cases op <;>
    simp [applyHostOp, gameLoopTick, scoreTick, spawnNode, handleNodeClick, h]

theorem runOps_over (b : Bool) (ops : List HostOp) (s : GameState)
    (h : s.gameOver = true) : runOps b ops s = s := by
  induction ops with
  | nil => rfl
  | cons op rest ih =>
    show runOps b rest (applyHostOp b op s).1 = s
    rw [applyHostOp_over b op s h]
    exact ih

/-! ### Preservation of the health invariant -/

theorem healthInv_gameLoopTick (b : Bool) (s : GameState)
    (hs : healthInv s) : healthInv (gameLoopTick b s).1 := by
  obtain ⟨hlo, hhi⟩ := hs
  have hd : (0:ℚ) ≤ HEALTH_DRAIN_RATE / (1000 / 100) := by
    norm_num [HEALTH_DRAIN_RATE]
  have h1lo : (0:ℚ) ≤ max 0 (s.pulseHealth - HEALTH_DRAIN_RATE / (1000 / 100)) :=
    le_max_left _ _
  have h1hi : max 0 (s.pulseHealth - HEALTH_DRAIN_RATE / (1000 / 100))
      ≤ MAX_HEALTH := by
    apply max_le
    · norm_num [MAX_HEALTH]
    · linarith
  have h2lo :=
    processNodes_health_nonneg
      (max 0 (s.pulseHealth - HEALTH_DRAIN_RATE / (1000 / 100))) s.nodes h1lo
  have h2hi : (processNodes
      (max 0 (s.pulseHealth - HEALTH_DRAIN_RATE / (1000 / 100))) s.nodes).1
      ≤ MAX_HEALTH :=
    le_trans (processNodes_health_le _ _ h1lo) h1hi
  simp only [gameLoopTick]
  split_ifs with hg hz hb
  · exact ⟨hlo, hhi⟩
  · cases b <;> simp only [broadcastGameOver, Bool.not_true, Bool.not_false,
      reduceIte, healthInv] <;> exact ⟨h2lo, h2hi⟩
  · exact ⟨h2lo, h2hi⟩
  · exact ⟨h2lo, h2hi⟩

theorem healthInv_scoreTick (s : GameState) (hs : healthInv s) :
    healthInv (scoreTick s) := by
  unfold scoreTick
  split_ifs <;> exact hs

theorem healthInv_spawnNode (b : Bool) (x y : ℚ) (s : GameState)
    (hs : healthInv s) : healthInv (spawnNode b x y s) := by
  unfold spawnNode
  split_ifs <;> exact hs

theorem healthInv_handleNodeClick (b : Bool) (nodeId : ℕ) (s : GameState)
    (hs : healthInv s) : healthInv (handleNodeClick b nodeId s).1 := by
  obtain ⟨hlo, hhi⟩ := hs
  unfold handleNodeClick
  split_ifs
  · exact ⟨hlo, hhi⟩
  · refine ⟨le_min ?_ ?_, min_le_left _ _⟩
    · norm_num [MAX_HEALTH]
    · have : (0:ℚ) ≤ HEALTH_GAIN_PER_CLICK := by
        norm_num [HEALTH_GAIN_PER_CLICK]
      linarith
  · exact ⟨hlo, hhi⟩

theorem healthInv_applyHostOp (b : Bool) (op : HostOp) (s : GameState)
    (hs : healthInv s) : healthInv (applyHostOp b op s).1 := by
  cases op with
  | tick => exact healthInv_gameLoopTick b s hs
  | scoreInc => exact healthInv_scoreTick s hs
  | spawn x y => exact healthInv_spawnNode b x y s hs
  | click nodeId => exact healthInv_handleNodeClick b nodeId s hs

theorem healthInv_runOps (b : Bool) (ops : List HostOp) (s : GameState)
    (hs : healthInv s) : healthInv (runOps b ops s) := by
  induction ops generalizing s with
  | nil => exact hs
  | cons op rest ih =>
    exact ih (applyHostOp b op s).1 (healthInv_applyHostOp b op s hs)

/-- `startGameHost` always resets the state, because its only early
return is guarded by a condition that is identically false. -/
theorem startGameHost_fst (b : Bool) (connCount : ℕ) (s : GameState) :
    (startGameHost b connCount s).1 =
      { gameRunning := true, pulseHealth := MAX_HEALTH, score := 0,
        nodes := [], gameOver := false, nextNodeId := 0, timersOn := true } := by
  simp [startGameHost, jsStrictEqBoolNum]

/-! ### Helper lemmas for the broadcast loop -/

theorem broadcastLoop_fst (conns : List ConnRec) :
    (broadcastLoop conns).1 =
      (conns.filter (fun r => r.isOpen && r.sendOk)).map ConnRec.peerId := by
  induction conns with
  | nil => rfl
  | cons c rest ih =>
    cases ho : c.isOpen <;> cases hs : c.sendOk <;>
      simp [broadcastLoop, List.filter_cons, ho, hs, ih]

theorem broadcastLoop_snd_mem (conns : List ConnRec) (c : ConnRec)
    (hc : c ∈ conns) (ho : c.isOpen = true) (hs : c.sendOk = false) :
    c.peerId ∈ (broadcastLoop conns).2 := by
  induction conns with
  | nil => cases hc
  | cons a rest ih =>
    rcases List.mem_cons.mp hc with rfl | h2
    · simp [broadcastLoop, ho, hs]
    · have hmem := ih h2
      cases hao : a.isOpen <;> cases has : a.sendOk <;>
        simp [broadcastLoop, hao, has, hmem]

/-! ### Helper lemmas for click handling -/

/-- Filtering out one id that occurs in a list of nodes with pairwise
distinct ids removes exactly one node. -/
theorem filter_ne_id_length (l : List Node) (i : ℕ)
    (hnd : (l.map Node.id).Nodup)
    (hmem : l.any (fun n => n.id == i) = true) :
    (l.filter (fun n => n.id != i)).length + 1 = l.length := by
  induction l with
  | nil => cases hmem
  | cons a rest ih =>
    have hnotin : a.id ∉ rest.map Node.id := (List.nodup_cons.mp hnd).1
    have hnd2 : (rest.map Node.id).Nodup := (List.nodup_cons.mp hnd).2
    by_cases hai : a.id = i
    · have hkeep : ∀ n ∈ rest, (n.id != i) = true := by
        intro n hn
        have hne : n.id ≠ i := by
          intro he
          exact hnotin (by rw [hai, ← he]; exact List.mem_map_of_mem Node.id hn)
        simpa using hne
      simp only [List.filter_cons, hai]
      rw [List.filter_eq_self.mpr hkeep]
      simp
    · have hmem2 : rest.any (fun n => n.id == i) = true := by
        simpa [List.any_cons, hai] using hmem
      have hres := ih hnd2 hmem2
      have hab : (a.id != i) = true := by simpa using hai
      simp [List.filter_cons, hab]
      omega

/-! ### Claim theorems -/

/-- C1: starting from a freshly started game, the health value stays
within `[0, MAX_HEALTH]` after every sequence of simulation operations
(game-loop ticks with their drains and expiries, score ticks, spawns,
successful or failed interactions), so at every observation point. -/
theorem c1_health_always_in_range (bStart b : Bool) (connCount : ℕ)
    (sInit : GameState) (ops : List HostOp) :
    0 ≤ (runOps b ops (startGameHost bStart connCount sInit).1).pulseHealth ∧
    (runOps b ops (startGameHost bStart connCount sInit).1).pulseHealth
      ≤ MAX_HEALTH := by
  have h0 : healthInv (startGameHost bStart connCount sInit).1 := by
    rw [startGameHost_fst]
    exact ⟨by norm_num [MAX_HEALTH], le_refl _⟩
  exact healthInv_runOps b ops _ h0

/-- A host state in a running game with a nonzero score, used to show
what `startGameHost` does when called while the game is running. -/
def c2RunningState : GameState :=
  { gameRunning := true, pulseHealth := 50, score := 7, nodes := [],
    gameOver := false, nextNodeId := 3, timersOn := true }

/-- C2: calling `startGameHost` while the game is already running is
NOT a no-op.  The guard only logs; the sole early return is under
`(!Object.keys($connections).length === 0 && !$isHost)`, which compares
a Boolean to a Number with `===` and is therefore always false, so the
call falls through and restarts the game: here it resets the score from
7 to 0, changes the state, and broadcasts a snapshot. -/
theorem c2_start_while_running_restarts :
    c2RunningState.gameRunning = true ∧
    c2RunningState.score = 7 ∧
    (startGameHost true 1 c2RunningState).1.score = 0 ∧
    (startGameHost true 1 c2RunningState).1 ≠ c2RunningState ∧
    (startGameHost true 1 c2RunningState).2 ≠ [] := by decide

def peerHostB : String := "hostB"

def peerIntruder : String := "intruder"

/-- A client state mirroring a running game, bound to host `peerHostB`. -/
def c3ClientState : GameState :=
  { gameRunning := true, pulseHealth := 80, score := 3, nodes := [],
    gameOver := false, nextNodeId := 0, timersOn := true }

/-- C3 counterexample: a `gameOver` message from a sender that is NOT
the bound host connection is not dropped — the client applies it
(its mirrored state changes), because the `gameOver` branch of
`window.handleGameData` has no sender check. -/
theorem c3_counterexample_stale_gameover_applied :
    (handleGameData false (some peerHostB) (GameMsg.gameOverMsg 5)
        peerIntruder c3ClientState).1 ≠ c3ClientState := by decide

/-- C3 (amended): a `gameStateUpdate` whose sender is not the peer of
the currently bound host connection is silently dropped (state and
outputs unchanged), but a `gameOver` message is applied by a client
regardless of its sender. -/
theorem c3_stale_snapshot_dropped_gameover_not :
    (∀ (hostPeer : Option String) (sender : String) (s : GameState)
       (h : ℚ) (sc : ℕ) (ns : List Node) (r o : Bool),
       hostPeer ≠ some sender →
       handleGameData false hostPeer (GameMsg.gameStateUpdate h sc ns r o)
         sender s = (s, [])) ∧
    (∀ (hostPeer : Option String) (sender : String) (s : GameState) (fs : ℕ),
       handleGameData false hostPeer (GameMsg.gameOverMsg fs) sender s =
         ({ s with gameOver := true, gameRunning := false, timersOn := false,
                   score := if fs != 0 then fs else s.score }, [])) := by
  constructor
  · intro hostPeer sender s h sc ns r o hne
    have hb : (hostPeer == some sender) = false := by
      simpa [beq_iff_eq] using hne
    simp [handleGameData, hb]
  · intro hostPeer sender s fs
    simp [handleGameData]

theorem c3_witness :
    (some peerHostB ≠ some peerIntruder) ∧
    handleGameData false (some peerHostB)
        (GameMsg.gameStateUpdate 10 2 [] true false) peerIntruder
        c3ClientState = (c3ClientState, []) := by
  refine ⟨by decide, ?_⟩
  exact c3_stale_snapshot_dropped_gameover_not.1 (some peerHostB) peerIntruder
    c3ClientState 10 2 [] true false (by decide)

/-- C6: handling an interaction for a `targetId` absent from the node
list, or while not running, or after game over, is a silent no-op:
state unchanged and no message sent to any peer. -/
theorem c6_click_absent_or_not_running_noop (b : Bool) (nodeId : ℕ)
    (s : GameState)
    (h : s.nodes.any (fun n => n.id == nodeId) = false ∨
         s.gameRunning = false ∨ s.gameOver = true) :
    handleNodeClick b nodeId s = (s, []) := by
  rcases h with h | h | h <;> simp [handleNodeClick, h]

/-- A running host state whose only node has id 0. -/
def c6State : GameState :=
  { gameRunning := true, pulseHealth := 60, score := 2,
    nodes := [{ id := 0, x := 20, y := 30, timer := 4000, maxTimer := 5000 }],
    gameOver := false, nextNodeId := 1, timersOn := true }

theorem c6_witness :
    c6State.nodes.any (fun n => n.id == 5) = false ∧
    handleNodeClick true 5 c6State = (c6State, []) :=
  ⟨by decide,
   c6_click_absent_or_not_running_noop true 5 c6State (Or.inl (by decide))⟩

/-- C8: the spawn delay equals
`max(NODE_SPAWN_INTERVAL_MIN, NODE_SPAWN_INTERVAL_START - score * 10)`,
is monotonically non-increasing in the score, and never drops below
`NODE_SPAWN_INTERVAL_MIN`. -/
theorem c8_spawn_delay_ramp (sc sc2 : ℕ) (hle : sc ≤ sc2) :
    currentInterval sc =
      max NODE_SPAWN_INTERVAL_MIN (NODE_SPAWN_INTERVAL_START - (sc : ℤ) * 10) ∧
    currentInterval sc2 ≤ currentInterval sc ∧
    NODE_SPAWN_INTERVAL_MIN ≤ currentInterval sc := by
  refine ⟨rfl, ?_, le_max_left _ _⟩
  unfold currentInterval
  apply max_le (le_max_left _ _)
  refine le_trans ?_ (le_max_right _ _)
  have hss : (sc : ℤ) ≤ (sc2 : ℤ) := by exact_mod_cast hle
  linarith

theorem c8_witness :
    3 ≤ 5 ∧ currentInterval 5 ≤ currentInterval 3 ∧
    NODE_SPAWN_INTERVAL_MIN ≤ currentInterval 3 :=
  ⟨by decide, (c8_spawn_delay_ramp 3 5 (by decide)).2⟩

/-- C10: a client receiving `gameOver` overwrites its mirrored score
only when the carried `finalScore` is truthy (JS `if (data.finalScore)`):
with `finalScore = 0` it sets `gameOver`, clears `gameRunning`, stops
its timers and keeps its local score; with a nonzero `finalScore` the
score is overwritten. -/
theorem c10_gameover_zero_keeps_score (s : GameState)
    (hostPeer : Option String) (sender : String) (fs : ℕ) (hfs : fs ≠ 0) :
    (handleGameData false hostPeer (GameMsg.gameOverMsg 0) sender s).1 =
      { s with gameOver := true, gameRunning := false, timersOn := false } ∧
    (handleGameData false hostPeer (GameMsg.gameOverMsg fs) sender s).1.score
      = fs := by
  constructor
  · simp [handleGameData]
  · simp [handleGameData, hfs]

/-- A client state with a nonzero mirrored score. -/
def c10State : GameState :=
  { gameRunning := true, pulseHealth := 40, score := 9, nodes := [],
    gameOver := false, nextNodeId := 0, timersOn := true }

theorem c10_witness :
    (4 : ℕ) ≠ 0 ∧
    (handleGameData false (some peerHostB) (GameMsg.gameOverMsg 0)
        peerHostB c10State).1 =
      { c10State with gameOver := true, gameRunning := false,
                      timersOn := false } ∧
    (handleGameData false (some peerHostB) (GameMsg.gameOverMsg 4)
        peerHostB c10State).1.score = 4 :=
  ⟨by decide,
   (c10_gameover_zero_keeps_score c10State (some peerHostB) peerHostB 4
      (by decide)).1,
   (c10_gameover_zero_keeps_score c10State (some peerHostB) peerHostB 4
      (by decide)).2⟩

/-- On a tick of a running, not-over game, the resulting node list and
health are exactly the result of the `processNodes` pass over the
drained health, in both the game-over and the surviving branch. -/
theorem gameLoopTick_nodes_health (b : Bool) (s : GameState)
    (hr : s.gameRunning = true) (ho : s.gameOver = false) :
    (gameLoopTick b s).1.nodes =
      (processNodes (max 0 (s.pulseHealth - HEALTH_DRAIN_RATE / (1000 / 100)))
        s.nodes).2.1 ∧
    (gameLoopTick b s).1.pulseHealth =
      (processNodes (max 0 (s.pulseHealth - HEALTH_DRAIN_RATE / (1000 / 100)))
        s.nodes).1 := by
  simp only [gameLoopTick]
  split_ifs with hg hz hm
  · rw [hr, ho] at hg; simp at hg
  · cases b <;> simp [broadcastGameOver]
  · simp
  · simp

/-- C4: on the tick where health reaches 0 (after drain and expiry),
the host sets `gameOver`, clears `gameRunning`, stops the timers, keeps
the score, broadcasts exactly one `gameOver` message carrying the score
at that moment, and every later simulation operation leaves the state
unchanged until a new game is explicitly started. -/
theorem c4_terminal_transition (s : GameState)
    (hr : s.gameRunning = true) (ho : s.gameOver = false)
    (hz : (processNodes
             (max 0 (s.pulseHealth - HEALTH_DRAIN_RATE / (1000 / 100)))
             s.nodes).1 ≤ 0) :
    (gameLoopTick true s).1.gameOver = true ∧
    (gameLoopTick true s).1.gameRunning = false ∧
    (gameLoopTick true s).1.timersOn = false ∧
    (gameLoopTick true s).1.score = s.score ∧
    (gameLoopTick true s).2 = [GameMsg.gameOverMsg s.score] ∧
    (∀ (b : Bool) (ops : List HostOp),
       runOps b ops (gameLoopTick true s).1 = (gameLoopTick true s).1) := by
  have hstep : gameLoopTick true s =
      ({ s with
           pulseHealth :=
             (processNodes
               (max 0 (s.pulseHealth - HEALTH_DRAIN_RATE / (1000 / 100)))
               s.nodes).1,
           nodes :=
             (processNodes
               (max 0 (s.pulseHealth - HEALTH_DRAIN_RATE / (1000 / 100)))
               s.nodes).2.1,
           gameOver := true, gameRunning := false, timersOn := false },
       [GameMsg.gameOverMsg s.score]) := by
    simp [gameLoopTick, hr, ho, hz, broadcastGameOver]
  rw [hstep]
  refine ⟨rfl, rfl, rfl, rfl, rfl, ?_⟩
  intro b ops
  exact runOps_over b ops _ rfl

/-- A running host state whose drained health reaches 0 on the next
tick. -/
def c4State : GameState :=
  { gameRunning := true, pulseHealth := 1/10, score := 7, nodes := [],
    gameOver := false, nextNodeId := 0, timersOn := true }

theorem c4_witness :
    c4State.gameRunning = true ∧ c4State.gameOver = false ∧
    (processNodes (max 0 (c4State.pulseHealth - HEALTH_DRAIN_RATE / (1000 / 100)))
       c4State.nodes).1 ≤ 0 ∧
    (gameLoopTick true c4State).1.gameOver = true ∧
    (gameLoopTick true c4State).2 = [GameMsg.gameOverMsg 7] := by
  have hz : (processNodes
      (max 0 (c4State.pulseHealth - HEALTH_DRAIN_RATE / (1000 / 100)))
      c4State.nodes).1 ≤ 0 := by
    norm_num [c4State, processNodes, HEALTH_DRAIN_RATE, max_le_iff]
  have h := c4_terminal_transition c4State rfl rfl hz
  exact ⟨rfl, rfl, hz, h.1, h.2.2.2.2.1⟩

/-- C5: handling an interaction for a present targetId while running
removes exactly that node, raises health by `HEALTH_GAIN_PER_CLICK`
clamped at `MAX_HEALTH`, keeps the score and all other nodes, and
immediately broadcasts the updated snapshot. -/
theorem c5_click_hit (s : GameState) (nodeId : ℕ)
    (hr : s.gameRunning = true) (ho : s.gameOver = false)
    (hmem : s.nodes.any (fun n => n.id == nodeId) = true)
    (hnd : (s.nodes.map Node.id).Nodup) :
    (handleNodeClick true nodeId s).1.pulseHealth =
      min MAX_HEALTH (s.pulseHealth + HEALTH_GAIN_PER_CLICK) ∧
    (handleNodeClick true nodeId s).1.nodes =
      s.nodes.filter (fun n => n.id != nodeId) ∧
    (handleNodeClick true nodeId s).1.nodes.length + 1 = s.nodes.length ∧
    (∀ m ∈ s.nodes, m.id ≠ nodeId →
       m ∈ (handleNodeClick true nodeId s).1.nodes) ∧
    (∀ m ∈ (handleNodeClick true nodeId s).1.nodes, m ∈ s.nodes) ∧
    (handleNodeClick true nodeId s).1.score = s.score ∧
    (handleNodeClick true nodeId s).2 =
      [GameMsg.gameStateUpdate
         (min MAX_HEALTH (s.pulseHealth + HEALTH_GAIN_PER_CLICK)) s.score
         (s.nodes.filter (fun n => n.id != nodeId)) true false] := by
  have hstep : handleNodeClick true nodeId s =
      ({ s with
           pulseHealth := min MAX_HEALTH (s.pulseHealth + HEALTH_GAIN_PER_CLICK),
           nodes := s.nodes.filter (fun n => n.id != nodeId) },
       [GameMsg.gameStateUpdate
          (min MAX_HEALTH (s.pulseHealth + HEALTH_GAIN_PER_CLICK)) s.score
          (s.nodes.filter (fun n => n.id != nodeId)) true false]) := by
    simp [handleNodeClick, hr, ho, hmem, broadcastGameState]
  rw [hstep]
  refine ⟨rfl, rfl, ?_, ?_, ?_, rfl, rfl⟩
  · exact filter_ne_id_length s.nodes nodeId hnd hmem
  · intro m hm hne
    exact List.mem_filter.mpr ⟨hm, by simpa using hne⟩
  · intro m hm
    exact (List.mem_filter.mp hm).1

/-- A running host state with two distinct nodes, ids 0 and 1. -/
def c5State : GameState :=
  { gameRunning := true, pulseHealth := 50, score := 4,
    nodes := [{ id := 0, x := 20, y := 30, timer := 5000, maxTimer := 5000 },
              { id := 1, x := 40, y := 50, timer := 3000, maxTimer := 5000 }],
    gameOver := false, nextNodeId := 2, timersOn := true }

theorem c5_witness :
    c5State.nodes.any (fun n => n.id == 0) = true ∧
    (c5State.nodes.map Node.id).Nodup ∧
    (handleNodeClick true 0 c5State).1.pulseHealth =
      min MAX_HEALTH (c5State.pulseHealth + HEALTH_GAIN_PER_CLICK) ∧
    (handleNodeClick true 0 c5State).1.nodes.length + 1 =
      c5State.nodes.length ∧
    (handleNodeClick true 0 c5State).1.score = c5State.score := by
  have h := c5_click_hit c5State 0 rfl rfl (by decide) (by decide)
  exact ⟨by decide, by decide, h.1, h.2.2.1, h.2.2.2.2.2.1⟩

/-- C7: on a tick of a running game, every node's timer is decremented
by the tick period and every node whose decremented timer is `<= 0` is
removed (this is `tickNode` applied across the list), each such removal
lowering health by `HEALTH_LOSS_PER_MISS` clamped at 0; surviving nodes
stay with their decremented timer; and, when node ids are distinct, an
expired node's id no longer occurs afterwards, so it cannot be removed
a second time by interaction or a later expiry. -/
theorem c7_tick_expiry (b : Bool) (s : GameState)
    (hr : s.gameRunning = true) (ho : s.gameOver = false) :
    (gameLoopTick b s).1.nodes = s.nodes.filterMap tickNode ∧
    (∀ n ∈ s.nodes, ¬(n.timer - 100 ≤ 0) →
       { n with timer := n.timer - 100 } ∈ (gameLoopTick b s).1.nodes) ∧
    (gameLoopTick b s).1.pulseHealth =
      s.nodes.foldl
        (fun a n =>
          if n.timer - 100 ≤ 0 then max 0 (a - HEALTH_LOSS_PER_MISS) else a)
        (max 0 (s.pulseHealth - HEALTH_DRAIN_RATE / (1000 / 100))) ∧
    ((s.nodes.map Node.id).Nodup → ∀ n ∈ s.nodes, n.timer - 100 ≤ 0 →
       ∀ m ∈ (gameLoopTick b s).1.nodes, m.id ≠ n.id) := by
  obtain ⟨hn, hh⟩ := gameLoopTick_nodes_health b s hr ho
  refine ⟨?_, ?_, ?_, ?_⟩
  · rw [hn, processNodes_nodes_eq]
  · intro n hmem hnt
    rw [hn, processNodes_nodes_eq]
    exact List.mem_filterMap.mpr ⟨n, hmem, by simp [tickNode, hnt]⟩
  · rw [hh, processNodes_health_eq]
  · intro hnd n hmem hexp m hm
    rw [hn, processNodes_nodes_eq] at hm
    exact expired_id_not_surviving s.nodes hnd n hmem hexp m hm

/-- A node that will expire on the next tick. -/
def c7Node0 : Node := { id := 0, x := 20, y := 20, timer := 100, maxTimer := 5000 }

/-- A node that survives the next tick. -/
def c7Node1 : Node := { id := 1, x := 30, y := 30, timer := 4000, maxTimer := 5000 }

/-- A running host state holding `c7Node0` and `c7Node1`. -/
def c7State : GameState :=
  { gameRunning := true, pulseHealth := 50, score := 1,
    nodes := [c7Node0, c7Node1], gameOver := false, nextNodeId := 2,
    timersOn := true }

theorem c7_witness :
    c7State.gameRunning = true ∧ c7State.gameOver = false ∧
    c7Node0 ∈ c7State.nodes ∧ c7Node0.timer - 100 ≤ 0 ∧
    (gameLoopTick true c7State).1.nodes = c7State.nodes.filterMap tickNode ∧
    (∀ m ∈ (gameLoopTick true c7State).1.nodes, m.id ≠ c7Node0.id) := by
  have h := c7_tick_expiry true c7State rfl rfl
  refine ⟨rfl, rfl, by decide, by decide, h.1, ?_⟩
  intro m hm
  exact h.2.2.2 (by decide) c7Node0 (by decide) (by decide) m hm

/-- C9: `broadcastData` called by a non-host performs zero sends;
called by the host with zero connected peers it performs zero sends and
raises no error; and the host's per-peer loop delivers the message to
exactly the open, non-failing peers — one peer's caught send failure is
recorded as that peer's disconnect and never prevents delivery to the
other open peers of the same call. -/
theorem c9_broadcast_isolated (conns : List ConnRec) (c : ConnRec) :
    broadcastData false conns = ([], []) ∧
    broadcastData true [] = ([], []) ∧
    (broadcastData true conns).1 =
      (conns.filter (fun r => r.isOpen && r.sendOk)).map ConnRec.peerId ∧
    (c ∈ conns → c.isOpen = true → c.sendOk = true →
       c.peerId ∈ (broadcastData true conns).1) ∧
    (c ∈ conns → c.isOpen = true → c.sendOk = false →
       c.peerId ∈ (broadcastData true conns).2) := by
  refine ⟨rfl, rfl, ?_, ?_, ?_⟩
  · simpa [broadcastData] using broadcastLoop_fst conns
  · intro hc ho hs
    have h1 : c ∈ conns.filter (fun r => r.isOpen && r.sendOk) :=
      List.mem_filter.mpr ⟨hc, by simp [ho, hs]⟩
    have h2 := List.mem_map_of_mem ConnRec.peerId h1
    simpa [broadcastData, broadcastLoop_fst] using h2
  · intro hc ho hs
    simpa [broadcastData] using broadcastLoop_snd_mem conns c hc ho hs

def connA : ConnRec := { peerId := "peerA", isOpen := true, sendOk := true }

def connB : ConnRec := { peerId := "peerB", isOpen := true, sendOk := false }

def connC : ConnRec := { peerId := "peerC", isOpen := true, sendOk := true }

/-- Three open peers of which the middle one fails mid-broadcast. -/
def c9Conns : List ConnRec := [connA, connB, connC]

theorem c9_witness :
    connC ∈ c9Conns ∧ connC.isOpen = true ∧ connC.sendOk = true ∧
    connC.peerId ∈ (broadcastData true c9Conns).1 ∧
    connB.peerId ∈ (broadcastData true c9Conns).2 := by
  refine ⟨by decide, rfl, rfl, ?_, ?_⟩
  · exact (c9_broadcast_isolated c9Conns connC).2.2.2.1 (by decide) rfl rfl
  · exact (c9_broadcast_isolated c9Conns connB).2.2.2.2 (by decide) rfl rfl

end SyncPulse
